import Mathlib

/-!
Verification development for the BRI-Visualize repository (src/app.py,
src/utils.py): a shallow embedding in Lean 4 of the attribute-driven
filtering and classification pipeline, and proofs about it.

The embedding models pandas/geopandas data as explicit Lean structures:

* a data frame is an ordered list of rows sharing a (name, dtype) schema;
  each row is an association list from column names to values, a missing
  key standing for a null (NaN) entry;
* cell values (`PyVal`) cover the value kinds the program manipulates:
  strings, integers, floats (modelled exactly as rationals), booleans,
  nulls, pandas timestamps and geometries;
* a pandas timestamp is its count of nanoseconds since the Unix epoch
  (1970-01-01T00:00:00Z); calendar fields are recovered with the standard
  civil-from-days algorithm;
* `pd.to_datetime` follows its documented semantics: numeric input is
  interpreted as nanoseconds since the Unix epoch (the default unit),
  strings are parsed as dates, unparseable values become NaT under
  `errors="coerce"`;
* `pd.to_numeric(..., errors="coerce")` parses numbers and maps
  unparseable values to null;
* `Series.quantile(q)` drops nulls, sorts, and linearly interpolates at
  rank `(n-1)*q`;
* float NaN ordering follows IEEE semantics: any comparison against an
  undefined (null) bound is false.
-/

namespace BRI

/-! ## Calendar arithmetic (model of pandas `Timestamp`)

Days-to-civil-date conversion, Howard Hinnant's `civil_from_days` and
`days_from_civil` written with floor division (`Int.fdiv`), which lets the
usual sign adjustments be dropped. -/

def nsPerDay : Int := 86400000000000

/-- Civil (year, month, day) of a count of days since 1970-01-01. -/
def civilFromDays (z0 : Int) : Int × Int × Int :=
  let z := z0 + 719468
  let era := Int.fdiv z 146097
  let doe := z - era * 146097
  let yoe := Int.fdiv (doe - Int.fdiv doe 1460 + Int.fdiv doe 36524 - Int.fdiv doe 146096) 365
  let y := yoe + era * 400
  let doy := doe - (365 * yoe + Int.fdiv yoe 4 - Int.fdiv yoe 100)
  let mp := Int.fdiv (5 * doy + 2) 153
  let d := doy - Int.fdiv (153 * mp + 2) 5 + 1
  let m := if mp < 10 then mp + 3 else mp - 9
  (if m ≤ 2 then y + 1 else y, m, d)

/-- Days since 1970-01-01 of a civil (year, month, day). -/
def daysFromCivil (y m d : Int) : Int :=
  let y2 := if m ≤ 2 then y - 1 else y
  let era := Int.fdiv y2 400
  let yoe := y2 - era * 400
  let mp := if m > 2 then m - 3 else m + 9
  let doy := Int.fdiv (153 * mp + 2) 5 + d - 1
  let doe := yoe * 365 + Int.fdiv yoe 4 - Int.fdiv yoe 100 + doy
  era * 146097 + doe - 719468

/-- A pandas `Timestamp`: nanoseconds since the Unix epoch. -/
structure Timestamp where
  ns : Int
deriving DecidableEq, Repr

/-- Year component of a timestamp (`Timestamp.year` / `.dt.year`). -/
def tsYear (t : Timestamp) : Int :=
  (civilFromDays (Int.fdiv t.ns nsPerDay)).1

/-- Month component of a timestamp. -/
def tsMonth (t : Timestamp) : Int :=
  (civilFromDays (Int.fdiv t.ns nsPerDay)).2.1

/-- Day-of-month component of a timestamp. -/
def tsDay (t : Timestamp) : Int :=
  (civilFromDays (Int.fdiv t.ns nsPerDay)).2.2

/-- Left-pad a numeral to two digits, as date formatting does. -/
def pad2 (n : Int) : String :=
  if n < 10 then "0" ++ toString n else toString n

/-- Date part `YYYY-MM-DD` of a timestamp's text form. -/
def tsDateStr (t : Timestamp) : String :=
  toString (tsYear t) ++ "-" ++ pad2 (tsMonth t) ++ "-" ++ pad2 (tsDay t)

/-- Time part `HH:MM:SS` of a timestamp's text form (sub-second digits are
not modelled; no claim inspects them). -/
def tsTimeStr (t : Timestamp) : String :=
  let secOfDay := Int.fdiv (t.ns - Int.fdiv t.ns nsPerDay * nsPerDay) 1000000000
  pad2 (Int.fdiv secOfDay 3600) ++ ":" ++ pad2 (Int.fdiv (Int.emod secOfDay 3600) 60)
    ++ ":" ++ pad2 (Int.emod secOfDay 60)

/-- Text form produced by `str()` / `.astype(str)` on a timestamp. -/
def tsStr (t : Timestamp) : String :=
  tsDateStr t ++ " " ++ tsTimeStr t

/-- Text form produced by `Timestamp.isoformat()`. -/
def tsIso (t : Timestamp) : String :=
  tsDateStr t ++ "T" ++ tsTimeStr t

/-- The timestamp with the given civil date at midnight. -/
def tsOfYmd (y m d : Int) : Timestamp :=
  ⟨daysFromCivil y m d * nsPerDay⟩

/-- Model of `pd.to_datetime` on a numeric value: the number is taken as
nanoseconds since the Unix epoch (the documented default `unit="ns"`);
values outside the representable `int64` range become NaT under
`errors="coerce"`. -/
def tsFromEpochNs (n : Int) : Option Timestamp :=
  if -(2 ^ 63) ≤ n ∧ n < 2 ^ 63 then some ⟨n⟩ else none

/-! ## Geometries and coordinate reference systems -/

/-- Geometry shapes as carried by the record sets (coordinates are pairs
of rationals, modelling floats exactly). -/
inductive Geom where
  | point (x y : ℚ)
  | multiPoint (coords : List (ℚ × ℚ))
  | lineString (coords : List (ℚ × ℚ))
  | polygon (rings : List (List (ℚ × ℚ)))
deriving DecidableEq, Repr

/-- Apply a coordinate transformation to every coordinate of a geometry. -/
def mapGeom (f : ℚ × ℚ → ℚ × ℚ) : Geom → Geom
  | .point x y => .point (f (x, y)).1 (f (x, y)).2
  | .multiPoint cs => .multiPoint (cs.map f)
  | .lineString cs => .lineString (cs.map f)
  | .polygon rs => .polygon (rs.map (·.map f))

/-- A coordinate reference system: its EPSG code when `to_epsg()`
succeeds, `none` when `to_epsg()` returns nothing or raises. -/
structure CRS where
  epsg : Option Int
deriving DecidableEq, Repr

/-! ## Python / pandas values -/

/-- Values occurring in attribute cells. -/
inductive PyVal where
  | pstr (s : String)
  | pint (n : Int)
  | pfloat (q : ℚ)
  | pbool (b : Bool)
  | pnone
  | pts (t : Timestamp)
  | pgeom (g : Geom)
deriving DecidableEq, Repr

/-- Whether a value is a pandas `Timestamp` instance. -/
def PyVal.isTs : PyVal → Bool
  | .pts _ => true
  | _ => false

/-- ASCII lowercase of a string, modelling Python `str.lower` on the
schemas at hand (written over `String.data` so it evaluates in the
kernel). -/
def pyLower (s : String) : String :=
  String.mk (s.data.map Char.toLower)

/-- Decimal text of a float value. Integral floats print as `k.0`;
the display of non-integral floats is approximated (no claim inspects
it). -/
def ratFloatStr (q : ℚ) : String :=
  if q.den = 1 then toString q.num ++ ".0"
  else toString q.num ++ "/" ++ toString q.den

/-- Model of Python `str()` as used by `.astype(str)`: null values print
as `nan` (the float NaN of a pandas column); geometries print as their
WKT, abbreviated here since no claim inspects it. -/
def pyStr : PyVal → String
  | .pstr s => s
  | .pint n => toString n
  | .pfloat q => ratFloatStr q
  | .pbool b => if b then "True" else "False"
  | .pnone => "nan"
  | .pts t => tsStr t
  | .pgeom _ => "GEOMETRY"

/-- Numeric value of a decimal digit character. -/
def digitVal (c : Char) : Nat := c.toNat - 48

/-- Natural number denoted by a list of decimal digit characters. -/
def digitsVal (cs : List Char) : Nat :=
  cs.foldl (fun a c => a * 10 + digitVal c) 0

/-- Model of numeric string parsing as `pd.to_numeric` performs it:
an optional sign, digits, and an optional fractional part. Exponent
forms are not modelled (no claim exercises them). -/
def parseNumeric (s : String) : Option ℚ :=
  let signed : List Char → Option ℚ := fun cs =>
    let intPart := cs.takeWhile Char.isDigit
    let rest := cs.dropWhile Char.isDigit
    if intPart.isEmpty then none
    else
      match rest with
      | [] => some (digitsVal intPart)
      | '.' :: frac =>
          if frac.all Char.isDigit then
            some ((digitsVal intPart : ℚ) +
              (digitsVal frac : ℚ) / ((10 : ℚ) ^ frac.length))
          else none
      | _ => none
  match s.data with
  | '-' :: cs => (signed cs).map (fun q => -q)
  | cs => signed cs

/-- Model of pandas generic date-string parsing for the shapes this
dataset uses: a bare four-digit year (parsed as January 1 of that year)
or an ISO `YYYY-MM-DD` date. Other strings are unparseable and become
NaT under `errors="coerce"`. -/
def parseDate (s : String) : Option Timestamp :=
  match s.data with
  | [a, b, c, d] =>
      if [a, b, c, d].all Char.isDigit then
        some (tsOfYmd (digitsVal [a, b, c, d]) 1 1)
      else none
  | [a, b, c, d, '-', e, f, '-', g, h] =>
      if ([a, b, c, d].all Char.isDigit && [e, f].all Char.isDigit
          && [g, h].all Char.isDigit) then
        let mo : Int := digitsVal [e, f]
        let da : Int := digitsVal [g, h]
        if 1 ≤ mo ∧ mo ≤ 12 ∧ 1 ≤ da ∧ da ≤ 31 then
          some (tsOfYmd (digitsVal [a, b, c, d]) mo da)
        else none
      else none
  | _ => none

/-- Per-value model of `pd.to_datetime(..., errors="coerce", utc=True)`:
timestamps pass through, strings are date-parsed, numeric values are
nanoseconds since the Unix epoch (documented default unit), everything
else coerces to NaT. -/
def pyToDatetime : PyVal → Option Timestamp
  | .pts t => some t
  | .pstr s => parseDate s
  | .pint n => tsFromEpochNs n
  | .pfloat q => tsFromEpochNs ⌊q⌋
  | _ => none

/-- Per-value model of `pd.to_numeric(..., errors="coerce")`. -/
def pyToNumeric : PyVal → Option ℚ
  | .pint n => some n
  | .pfloat q => some q
  | .pbool b => some (if b then 1 else 0)
  | .pstr s => parseNumeric s
  | _ => none

/-- First run of four consecutive decimal digits in a character list:
the match of the regular expression `(\d{4})`. -/
def firstFour : List Char → Option (List Char)
  | [] => none
  | a :: rest =>
    match rest with
    | b :: c :: d :: _ =>
        if a.isDigit && b.isDigit && c.isDigit && d.isDigit then
          some [a, b, c, d]
        else firstFour rest
    | _ => none

/-! ## Data frames -/

/-- Column dtypes the pipeline distinguishes: `datetime64`, a numeric
dtype (`int64`/`float64`), the generic object dtype, and the geopandas
geometry dtype. -/
inductive Dtype where
  | dt64
  | numeric
  | objType
  | geomType
deriving DecidableEq, Repr

/-- One record: an association list from column names to values. A
missing key denotes a null (NaN) entry, matching the column-superset-
with-nulls alignment of the data model. -/
abbrev Row := List (String × PyVal)

/-- A (Geo)DataFrame: an ordered schema of named, dtyped columns, an
ordered list of rows, and an optional coordinate reference system. -/
structure Frame where
  schema : List (String × Dtype)
  rows : List Row
  crs : Option CRS
deriving DecidableEq, Repr

/-- Dtype of a named column (object dtype when the name is absent). -/
def dtypeOf (f : Frame) (n : String) : Dtype :=
  (f.schema.lookup n).getD .objType

/-- Cells of a named column, null for rows lacking the key. -/
def colCells (f : Frame) (n : String) : List PyVal :=
  f.rows.map (fun r => (r.lookup n).getD .pnone)

/-- Whether the frame has no rows (`DataFrame.empty` for the frames at
hand, which always carry columns). -/
def Frame.isEmptyF (f : Frame) : Bool :=
  f.rows.isEmpty

/-! ## Year Coercion Engine (`get_year_series`, src/app.py lines 183-214) -/

/-- Model of `pd.to_datetime(s, errors="coerce", utc=True)` on a whole
column. The dtype does not change the per-value behaviour here: numeric
cells are epoch nanoseconds whether they sit in a numeric or an object
column. A call that raises (e.g. on the geometry dtype) is caught by the
source's `except Exception: pass` and behaves like an all-NaT result,
which is what the catch-all `none` branch of `pyToDatetime` yields. -/
def toDatetimeCol (cells : List PyVal) : List (Option Timestamp) :=
  cells.map pyToDatetime

/-- Model of `pd.to_numeric(s, errors="coerce")` on a whole column. On a
`datetime64` column the values convert to their nanosecond counts. -/
def toNumericCol (dty : Dtype) (cells : List PyVal) : List (Option ℚ) :=
  match dty with
  | .dt64 => cells.map (fun v => match v with | .pts t => some (t.ns : ℚ) | _ => none)
  | _ => cells.map pyToNumeric

/-- Regex last-resort of `get_year_series`: `s.astype(str)` followed by
`.str.extract(r"(\d{4})")` and `pd.to_numeric`. -/
def extractYearCol (cells : List PyVal) : List (Option ℚ) :=
  cells.map (fun v => (firstFour (pyStr v).data).map (fun ds => ((digitsVal ds : ℚ))))

/-- The Year Coercion Engine: `get_year_series` of src/app.py, lines
183-214, on a column of the given dtype. Returns the derived year of
each record as a float, null where no branch yields a value. -/
def get_year_series (dty : Dtype) (cells : List PyVal) : List (Option ℚ) :=
  match dty with
  | .dt64 => cells.map (fun v => match v with
      | .pts t => some ((tsYear t : Int) : ℚ)
      | _ => none)
  | _ =>
    let dt := toDatetimeCol cells
    if dt.any (·.isSome) then
      dt.map (Option.map (fun t => ((tsYear t : Int) : ℚ)))
    else
      let sNum := toNumericCol dty cells
      if sNum.any (·.isSome) then
        if ((sNum.countP (fun o => o.elim false (fun q => decide (q > 3000)))) : ℚ)
            / (cells.length : ℚ) > 1 / 2 then
          extractYearCol cells
        else sNum
      else extractYearCol cells

/-! ## Value Bucketizer (src/app.py lines 261-272) -/

/-- Interpolation step of `Series.quantile` once the segment index is
known: the value at index `i`, moved `h - i` of the way towards the next
value when one exists. -/
def interpSeg (s : List ℚ) (h : ℚ) (i : ℕ) : Option ℚ :=
  match s.get? i, s.get? (i + 1) with
  | some a, some b => some (a + (h - (i : ℚ)) * (b - a))
  | some a, none => some a
  | none, _ => none

/-- Linear interpolation of a sorted value list at a fractional rank
`h`: the segment index is `⌊h⌋`. -/
def interpAt (s : List ℚ) (h : ℚ) : Option ℚ :=
  interpSeg s h (Int.floor h).toNat

/-- Model of `Series.quantile(q)` with the default linear interpolation:
sort the defined values, then interpolate at rank `(n-1)*q`. Returns
`none` (NaN) on an empty list. -/
def quantile (xs : List ℚ) (q : ℚ) : Option ℚ :=
  match xs with
  | [] => none
  | _ => interpAt (xs.insertionSort (· ≤ ·)) (((xs.length - 1 : ℕ) : ℚ) * q)

/-- Comparison of a float against a possibly-NaN bound: `v <= NaN` is
false under IEEE semantics. -/
def leOpt (x : ℚ) : Option ℚ → Bool
  | some b => decide (x ≤ b)
  | none => false

/-- The per-value classifier `bucket` of src/app.py lines 265-269:
null is unclassified; otherwise Low when `v ≤ q1`, Medium when
`v ≤ q2`, else High. -/
def bucket (q1 q2 : Option ℚ) : Option ℚ → Option String
  | none => none
  | some x =>
      if leOpt x q1 then some "Low"
      else if leOpt x q2 then some "Medium"
      else some "High"

/-- Membership test `b.isin(bucket_choice)`: a null bucket is in no
choice set. -/
def bucketMem (choice : List String) : Option String → Bool
  | some s => decide (s ∈ choice)
  | none => false

/-! ## Filter Engine (src/app.py lines 246-272) -/

/-- Keep the entries of a list selected by a boolean mask (pandas boolean
row indexing; masks built below always have the rows' length). -/
def applyMask : List α → List Bool → List α
  | x :: xs, b :: bs => if b then x :: applyMask xs bs else applyMask xs bs
  | _, _ => []

/-- Filter a frame's rows by a boolean mask. -/
def maskFilter (f : Frame) (m : List Bool) : Frame :=
  { f with rows := applyMask f.rows m }

/-- Mask of `filtered[col].astype(str).isin(sel)`. -/
def strInMask (f : Frame) (c : String) (sel : List String) : List Bool :=
  (colCells f c).map (fun v => decide (pyStr v ∈ sel))

/-- One set-membership filter stage (country, sector or precision):
`if sel and cols[role]: filtered = filtered[...astype(str).isin(sel)]`.
An empty selection or an unbound role leaves the frame unchanged. -/
def selStage (sel : List String) (cb : Option String) (f : Frame) : Frame :=
  match sel with
  | [] => f
  | _ =>
    match cb with
    | none => f
    | some c => maskFilter f (strInMask f c sel)

/-- The year-range filter stage: rows whose derived year lies in the
inclusive range; rows with an undefined year are dropped. -/
def yearStage (yr : Option (Int × Int)) (cb : Option String) (f : Frame) : Frame :=
  match yr with
  | none => f
  | some (a, b) =>
    match cb with
    | none => f
    | some c =>
      let yy := get_year_series (dtypeOf f c) (colCells f c)
      maskFilter f (yy.map (fun o => o.elim false
        (fun q => decide ((a : ℚ) ≤ q ∧ q ≤ (b : ℚ)))))

/-- The value-bucket filter stage: tercile breakpoints are computed over
the incoming (already otherwise-filtered) frame's numeric values, then
rows whose bucket is in the choice set are kept. -/
def valueStage (choice : List String) (cb : Option String) (f : Frame) : Frame :=
  match choice with
  | [] => f
  | _ =>
    match cb with
    | none => f
    | some c =>
      let vs := toNumericCol (dtypeOf f c) (colCells f c)
      let defined := vs.filterMap id
      let q1 := quantile defined (33 / 100)
      let q2 := quantile defined (66 / 100)
      maskFilter f ((vs.map (bucket q1 q2)).map (bucketMem choice))

/-- The role-binding map (the `cols` dictionary of src/app.py). -/
structure ColsB where
  country : Option String
  sector : Option String
  year : Option String
  precision : Option String
  value : Option String
deriving DecidableEq, Repr

/-- The Filter Engine: the sequential filter block of src/app.py lines
246-272, applied in source order (country, sector, year, precision,
value bucket). -/
def applyFilters (f : Frame) (cb : ColsB) (selCountries selSectors : List String)
    (yearRange : Option (Int × Int)) (selPrec : List String)
    (bucketChoice : List String) : Frame :=
  valueStage bucketChoice cb.value
    (selStage selPrec cb.precision
      (yearStage yearRange cb.year
        (selStage selSectors cb.sector
          (selStage selCountries cb.country f))))

/-! ## Column Role Detector (`detect_columns`, src/utils.py lines 11-54) -/

def PRECISION_COLS : List String :=
  ["geo_precision", "geographic_precision", "precision", "location_precision"]

def COUNTRY_COLS : List String :=
  ["country", "recipient_country", "iso3", "country_name"]

def SECTOR_COLS : List String :=
  ["sector", "broad_sector_name", "sector_name"]

def YEAR_COLS : List String :=
  ["year", "commitment_year", "start_year"]

def VALUE_COLS : List String :=
  ["project_value_usd", "usd_commitment", "commitment_amount_usd", "value_usd_2021_const"]

/-- The entry of `lower_map = {c.lower(): c for c in gdf.columns}` at a
key: the last column whose lowercase equals the key (a dict
comprehension lets later duplicates overwrite earlier ones). -/
def lowerLookup (cols : List String) (key : String) : Option String :=
  (cols.filter (fun c => pyLower c == key)).getLast?

/-- The inner `pick`: the first candidate present in the lowercase map,
mapped to its actual column name. -/
def pickCol (cols : List String) : List String → Option String
  | [] => none
  | cand :: rest =>
    match lowerLookup cols cand with
    | some v => some v
    | none => pickCol cols rest

/-- The Column Role Detector `detect_columns` over a schema's column
names. -/
def detect_columns (cols : List String) : ColsB :=
  { country := pickCol cols COUNTRY_COLS
    sector := pickCol cols SECTOR_COLS
    year := pickCol cols YEAR_COLS
    precision := pickCol cols PRECISION_COLS
    value := pickCol cols VALUE_COLS }

/-! ## Coordinate Normalizer (`to_wgs84`, src/utils.py lines 61-74) -/

/-- Transform every geometry cell of a row. -/
def rowMapGeom (t : ℚ × ℚ → ℚ × ℚ) (r : Row) : Row :=
  r.map (fun c => match c.2 with
    | .pgeom g => (c.1, .pgeom (mapGeom t g))
    | _ => c)

/-- Model of `gdf.to_crs(4326)`: reproject every coordinate from the
source system (using the ambient projection `rp`) and tag the result
with EPSG:4326. -/
def toCrs4326 (rp : CRS → ℚ × ℚ → ℚ × ℚ) (src : CRS) (f : Frame) : Frame :=
  { f with rows := f.rows.map (rowMapGeom (rp src)), crs := some ⟨some 4326⟩ }

/-- The Coordinate Normalizer `to_wgs84`: a missing tag is overridden to
EPSG:4326 without transforming coordinates; a tag already at 4326 is a
no-op (the `try`/`except` around `to_epsg()` lands in the reprojection
branch when `to_epsg()` yields nothing); anything else reprojects. -/
def to_wgs84 (rp : CRS → ℚ × ℚ → ℚ × ℚ) (f : Frame) : Frame :=
  match f.crs with
  | none => { f with crs := some ⟨some 4326⟩ }
  | some c =>
    if c.epsg = some 4326 then f
    else toCrs4326 rp c f

/-- EPSG code of a frame's reference system, when one resolves. -/
def crsEpsg (f : Frame) : Option Int :=
  f.crs.bind (·.epsg)

/-! ## JSON Sanitizer (`sanitize_for_json`, src/app.py lines 281-296;
`clean_for_json`, src/utils.py lines 193-206) -/

/-- Cell conversion of `sanitize_for_json` for a non-geometry column of
the given dtype: a `datetime64` column is `astype(str)` (every cell
becomes text, NaT included); an object column converts exactly its
`Timestamp` instances to `isoformat()` text; other dtypes are
untouched. -/
def sanitizeCellApp (dty : Dtype) (v : PyVal) : PyVal :=
  match dty with
  | .dt64 => .pstr (match v with
      | .pts t => tsStr t
      | .pnone => "NaT"
      | w => pyStr w)
  | .objType =>
      match v with
      | .pts t => .pstr (tsIso t)
      | w => w
  | _ => v

/-- Cell conversion of `clean_for_json`: only `datetime64` columns are
converted (`astype(str)`); object columns are left alone. -/
def sanitizeCellClean (dty : Dtype) (v : PyVal) : PyVal :=
  match dty with
  | .dt64 => .pstr (match v with
      | .pts t => tsStr t
      | .pnone => "NaT"
      | w => pyStr w)
  | _ => v

/-- Dtype after sanitization: `astype(str)` turns `datetime64` into the
object dtype. -/
def sanitizeDty : Dtype → Dtype
  | .dt64 => .objType
  | d => d

/-- The JSON Sanitizer `sanitize_for_json` of src/app.py: every column
except the one named `geometry` is converted cellwise according to its
dtype. -/
def sanitize_for_json (f : Frame) : Frame :=
  { schema := f.schema.map (fun p =>
      (p.1, if p.1 = "geometry" then p.2 else sanitizeDty p.2))
    rows := f.rows.map (fun r => r.map (fun c =>
      (c.1, if c.1 = "geometry" then c.2 else sanitizeCellApp (dtypeOf f c.1) c.2)))
    crs := f.crs }

/-- The cleaner `clean_for_json` of src/utils.py: like
`sanitize_for_json` but converting only `datetime64` columns. -/
def clean_for_json (f : Frame) : Frame :=
  { schema := f.schema.map (fun p =>
      (p.1, if p.1 = "geometry" then p.2 else sanitizeDty p.2))
    rows := f.rows.map (fun r => r.map (fun c =>
      (c.1, if c.1 = "geometry" then c.2 else sanitizeCellClean (dtypeOf f c.1) c.2)))
    crs := f.crs }

/-- The pair a cell at (row, column position) holds, used to state
cellwise properties of the sanitizers. -/
def cellAt (f : Frame) (i j : ℕ) : Option (String × PyVal) :=
  (f.rows.get? i).bind (·.get? j)

/-! ## Geometry Simplifier (`simplify_geometries`, src/utils.py
lines 81-96), with the simplification algorithm itself (shapely's
topology-preserving simplify) as an ambient parameter. -/

def simplify_geometries (sf : Geom → Geom) (f : Frame) : Frame :=
  if f.rows.isEmpty then f
  else { f with rows := f.rows.map (fun r => r.map (fun c =>
    match c.2 with
    | .pgeom g => (c.1, .pgeom (sf g))
    | _ => c)) }

/-! ## GeoJSON folder reader (`read_geojson_folder`, src/utils.py
lines 148-186) -/

/-- Merge the schemas of concatenated frames: columns of the second
frame not already present are appended (`pd.concat` column alignment;
rows carry their own names, so absent keys read as nulls). Dtype
unification keeps the first occurrence, an abstraction that no claim
depends on. -/
def unionSchema (s1 s2 : List (String × Dtype)) : List (String × Dtype) :=
  s1 ++ s2.filter (fun p => ¬ s1.any (fun q => q.1 == p.1))

/-- Model of `pd.concat(frames, ignore_index=True)`: rows are
concatenated in order, schemas are aligned by name. -/
def concatFrames (frames : List Frame) : Frame :=
  { schema := frames.foldl (fun acc f => unionSchema acc f.schema) []
    rows := (frames.map (·.rows)).flatten
    crs := none }

/-- Suffix test on strings, written over the character lists so that it
evaluates in the kernel. -/
def strEndsWith (s t : String) : Bool :=
  List.isSuffixOf t.data s.data

/-- Lexicographic comparison of character lists by code point, the order
`sorted()` applies to path names. -/
def charsLe : List Char → List Char → Bool
  | [], _ => true
  | _ :: _, [] => false
  | c :: cs, d :: ds =>
      if c.toNat < d.toNat then true
      else if d.toNat < c.toNat then false
      else charsLe cs ds

/-- Lexicographic string comparison by code point. -/
def strLe (a b : String) : Bool :=
  charsLe a.data b.data

/-- File names matched by `folder.glob("*.geojson")`, in sorted order. -/
def geojsonFiles (entries : List (String × Option Frame)) :
    List (String × Option Frame) :=
  (entries.filter (fun e => strEndsWith e.1 ".geojson")).insertionSort
    (fun a b => strLe a.1 b.1 = true)

/-- The folder reader `read_geojson_folder`. The folder is `none` when
the path does not exist; otherwise it lists the directory entries, each
carrying `some` frame when `gpd.read_file` succeeds on it and `none`
when reading raises (such files are skipped with a printed warning).
The `simplify_tol` argument is `None` at the call site in src/app.py, so
the trailing simplification is not entered (`if simplify_tol:` is false
both for `None` and for `0.0`). -/
def read_geojson_folder (rp : CRS → ℚ × ℚ → ℚ × ℚ) (sf : Geom → Geom)
    (folder : Option (List (String × Option Frame)))
    (simplifyTol : Option ℚ) : Except String Frame :=
  match folder with
  | none => .error "Folder not found"
  | some entries =>
    let files := geojsonFiles entries
    if files.isEmpty then .error "No .geojson files found"
    else
      let frames := files.filterMap (·.2)
      match frames with
      | [] => .error "No valid GeoJSON files could be read"
      | f0 :: _ =>
        let merged := { concatFrames frames with crs := f0.crs }
        let merged := to_wgs84 rp merged
        match simplifyTol with
        | some t => if t ≠ 0 then .ok (simplify_geometries sf merged) else .ok merged
        | none => .ok merged

/-! ## GeoPackage reader (`read_geopackage`, src/utils.py lines 103-141) -/

/-- A GeoPackage source as the reader observes it. `listing` is `none`
when importing pyogrio or listing layers raises; otherwise it holds the
declared layers in order, each with `some` frame when the pyogrio read
succeeds and `none` when it raises. `namedRead l` is the outcome of a
pyogrio read of the explicitly named layer `l`, and `fallbackRead` the
outcome of the default-engine `gpd.read_file` fallback. -/
structure Gpkg where
  listing : Option (List (String × Option Frame))
  namedRead : String → Option Frame
  fallbackRead : Option Frame

/-- The scan loop over the declared layers: read each in order, stop at
the first non-empty result; when every layer is empty the last read
result remains. A read that raises aborts the whole `try` block
(yielding `none`, which sends the caller to the fallback). -/
def scanLayers : List (String × Option Frame) → Option Frame
  | [] => none
  | (_, none) :: _ => none
  | (_, some g) :: rest =>
    if g.isEmptyF then
      match rest with
      | [] => some g
      | _ => scanLayers rest
    else some g

/-- The GeoPackage reader `read_geopackage`. A missing path raises
`FileNotFoundError` before anything is read. With no explicit layer, the
layer listing drives the scan; an empty listing raises inside the `try`
(the raise is caught, like any other failure in the block, and the
default-engine fallback read is attempted). The app calls this with
`layer=None` and `simplify_tol=None`. -/
def read_geopackage (rp : CRS → ℚ × ℚ → ℚ × ℚ) (sf : Geom → Geom)
    (path : Option Gpkg) (layer : Option String)
    (simplifyTol : Option ℚ) : Except String Frame :=
  match path with
  | none => .error "GeoPackage not found"
  | some pkg =>
    let tryRes : Option Frame :=
      match layer with
      | none =>
        match pkg.listing with
        | none => none
        | some ls => if ls.isEmpty then none else scanLayers ls
      | some l => pkg.namedRead l
    let res : Option Frame :=
      match tryRes with
      | some g => some g
      | none => pkg.fallbackRead
    match res with
    | some g =>
      let g := to_wgs84 rp g
      match simplifyTol with
      | some t => if t ≠ 0 then .ok (simplify_geometries sf g) else .ok g
      | none => .ok g
    | none => .error "read failed"

/-- Post-processing tail of `read_geopackage` on a successfully read
frame: normalize, then simplify when a non-zero tolerance was given. -/
def postRead (rp : CRS → ℚ × ℚ → ℚ × ℚ) (sf : Geom → Geom)
    (simplifyTol : Option ℚ) (g : Frame) : Frame :=
  match simplifyTol with
  | some t => if t ≠ 0 then simplify_geometries sf (to_wgs84 rp g) else to_wgs84 rp g
  | none => to_wgs84 rp g

/-- Modelled from the claim's words (C10): the first non-empty frame of
a layer list in declared order, falling back to the last frame when all
are empty. -/
def firstNonEmptyLayer : List Frame → Option Frame
  | [] => none
  | [g] => some g
  | g :: rest => if g.rows ≠ [] then some g else firstNonEmptyLayer rest

/-! ## Statement-side notions used by the claims -/

/-- Whether a candidate name is present in a schema under
case-insensitive comparison. -/
def candPresent (cols : List String) (cand : String) : Prop :=
  ∃ c ∈ cols, pyLower c = cand

/-- The Column Role Detector contract for one role (C5): unbound exactly
when no candidate is present; a binding goes to the first candidate
present in priority order, and names an actual schema field. -/
def bindsFirst (cols cands : List String) (r : Option String) : Prop :=
  (r = none ↔ ∀ cand ∈ cands, ¬ candPresent cols cand) ∧
  (∀ f, r = some f → f ∈ cols ∧
    ∃ pre cand post, cands = pre ++ cand :: post ∧
      (∀ c ∈ pre, ¬ candPresent cols c) ∧ pyLower f = cand)

/-- Set intersection of two filter results, as sets of records: the
records of the first result that also occur in the second. -/
def interRows (r1 r2 : List Row) : List Row :=
  r1.filter (fun r => decide (r ∈ r2))

/-! ## Concrete record sets used by counterexamples and witnesses -/

/-- First record of the C1 record set: country `A`, value `1`. -/
def exC1RowA1 : Row :=
  [("country", .pstr "A"), ("val", .pint 1), ("geometry", .pnone)]

/-- Second record of the C1 record set: country `A`, value `2`. -/
def exC1RowA2 : Row :=
  [("country", .pstr "A"), ("val", .pint 2), ("geometry", .pnone)]

/-- Third record of the C1 record set: country `B`, value `30`. -/
def exC1RowB30 : Row :=
  [("country", .pstr "B"), ("val", .pint 30), ("geometry", .pnone)]

/-- Record set for the C1 counterexample: three records, countries
`A, A, B` with financing values `1, 2, 30`. -/
def exC1F : Frame :=
  { schema := [("country", .objType), ("val", .numeric), ("geometry", .geomType)]
    rows := [exC1RowA1, exC1RowA2, exC1RowB30]
    crs := some ⟨some 4326⟩ }

/-- Role bindings for the C1 counterexample. -/
def exC1Cols : ColsB :=
  { country := some "country", sector := none, year := none
    precision := none, value := some "val" }

/-- The country-only filter result of `exC1F`. -/
def exC1Country : Frame :=
  { exC1F with rows := [exC1RowA1, exC1RowA2] }

/-- Record set for the C7 witness: a geometry field, a numeric field, a
datetime column and an object column holding a timestamp. -/
def exC7F : Frame :=
  { schema := [("geometry", .geomType), ("amount", .numeric),
               ("when", .dt64), ("note", .objType)]
    rows := [[("geometry", .pnone), ("amount", .pint 5),
              ("when", .pts ⟨0⟩), ("note", .pts ⟨86400000000000⟩)]]
    crs := none }

/-- A two-record frame already in the target reference system, used by
the reader witnesses. -/
def exFr1 : Frame :=
  { schema := [("geometry", .geomType)]
    rows := [[("geometry", .pnone)], [("geometry", .pnone)]]
    crs := some ⟨some 4326⟩ }

/-- A frame with no records, used by the reader witnesses. -/
def exEmptyF : Frame :=
  { schema := [("geometry", .geomType)], rows := [], crs := some ⟨some 4326⟩ }

/-- Folder contents for the C9 witness: one readable GeoJSON, one
unreadable GeoJSON, and a non-GeoJSON file that the glob ignores. -/
def exC9Entries : List (String × Option Frame) :=
  [("a.geojson", some exFr1), ("b.geojson", none), ("notes.txt", some exFr1)]

/-- GeoPackage for the C10 witness: an empty first layer and a non-empty
second layer. -/
def exC10Pkg : Gpkg :=
  { listing := some [("empty", some exEmptyF), ("good", some exFr1)]
    namedRead := fun _ => none
    fallbackRead := none }

end BRI

namespace BRI

/-! # Theorems -/

/-- C8: applying the Filter Engine with an empty Filter Selection (no
selected countries, sectors, precisions or buckets, and no year
constraint) returns the full input record set unchanged — original
order preserved, every attribute value untouched. -/
theorem C8_empty_selection (f : Frame) (cb : ColsB) :
    applyFilters f cb [] [] none [] [] = f := rfl

/-- C6: after the Coordinate Normalizer runs, the record set's reference
system is the fixed target system EPSG:4326, and the normalizer is
idempotent: normalizing twice yields the same record set as normalizing
once. -/
theorem C6_normalizer (rp : CRS → ℚ × ℚ → ℚ × ℚ) (f : Frame) :
    crsEpsg (to_wgs84 rp f) = some 4326 ∧
    to_wgs84 rp (to_wgs84 rp f) = to_wgs84 rp f := by
  rcases f with ⟨s, rows, crs⟩
  cases crs with
  | none =>
      constructor
      · rfl
      · rfl
  | some c =>
      by_cases h : c.epsg = some 4326
      · constructor
        · simp [to_wgs84, h, crsEpsg]
        · simp [to_wgs84, h]
      · constructor
        · simp [to_wgs84, h, toCrs4326, crsEpsg]
        · simp [to_wgs84, h, toCrs4326]

/-- C2 (divergence witness): the claim says a numeric year value `2019`
yields the derived year `2019`; on a numeric column the code's
`pd.to_datetime` step succeeds first, interpreting `2019` as 2019
nanoseconds past the Unix epoch, so the Year Coercion Engine actually
derives the year `1970` and the numeric `≤ 3000` branch is never
reached. -/
theorem C2_year_numeric_2019 :
    get_year_series .numeric [.pint 2019] = [some (1970 : ℚ)] := by decide

/-- C3 (divergence witness): the claim says the numeric value `20190615`
yields the year `2019` via 4-digit extraction; on a numeric column the
code's `pd.to_datetime` step succeeds first, interpreting `20190615` as
nanoseconds past the Unix epoch, so the Year Coercion Engine actually
derives the year `1970` and the extraction branch is never reached. -/
theorem C3_year_numeric_packed :
    get_year_series .numeric [.pint 20190615] = [some (1970 : ℚ)] := by decide

/-! ### Column Role Detector lemmas -/

theorem lowerLookup_some {cols : List String} {k v : String}
    (h : lowerLookup cols k = some v) : v ∈ cols ∧ pyLower v = k := by
  unfold lowerLookup at h
  have hv := List.mem_of_getLast?_eq_some h
  rcases List.mem_filter.1 hv with ⟨h1, h2⟩
  exact ⟨h1, by simpa using h2⟩

theorem lowerLookup_none {cols : List String} {k : String} :
    lowerLookup cols k = none ↔ ¬ candPresent cols k := by
  unfold lowerLookup candPresent
  rw [List.getLast?_eq_none_iff, List.filter_eq_nil_iff]
  constructor
  · intro h hp
    rcases hp with ⟨c, hc, hl⟩
    exact h c hc (by simpa using hl)
  · intro h c hc hb
    exact h ⟨c, hc, by simpa using hb⟩

theorem pick_bindsFirst (cols : List String) :
    ∀ cands, bindsFirst cols cands (pickCol cols cands) := by
  intro cands
  induction cands with
  | nil =>
      refine ⟨by simp [pickCol], fun f hf => ?_⟩
      simp [pickCol] at hf
  | cons cand rest ih =>
      cases hl : lowerLookup cols cand with
      | some v =>
          have hv := lowerLookup_some hl
          refine ⟨⟨fun h => ?_, fun h => ?_⟩, fun f hf => ?_⟩
          · exact absurd h (by simp [pickCol, hl])
          · exact absurd ⟨v, hv.1, hv.2⟩ (h cand (List.mem_cons_self _ _))
          · have hfv : v = f := by simpa [pickCol, hl] using hf
            subst hfv
            exact ⟨hv.1, [], cand, rest, rfl, by simp, hv.2⟩
      | none =>
          obtain ⟨ih1, ih2⟩ := ih
          have hnp : ¬ candPresent cols cand := lowerLookup_none.1 hl
          have hred : pickCol cols (cand :: rest) = pickCol cols rest := by
            simp [pickCol, hl]
          refine ⟨?_, fun f hf => ?_⟩
          · rw [hred, ih1]
            constructor
            · intro h c hc
              rcases List.mem_cons.1 hc with rfl | hc2
              · exact hnp
              · exact h c hc2
            · intro h c hc
              exact h c (List.mem_cons_of_mem _ hc)
          · rw [hred] at hf
            obtain ⟨hmem, pre, cand2, post, hceq, hpre, hlow⟩ := ih2 f hf
            refine ⟨hmem, cand :: pre, cand2, post, by rw [hceq]; rfl, ?_, hlow⟩
            intro c hc
            rcases List.mem_cons.1 hc with rfl | hc2
            · exact hnp
            · exact hpre c hc2

/-- C5: for every attribute schema and each of the five roles, the
Column Role Detector binds the role to the first candidate name in the
role's priority-ordered candidate list present in the schema under
case-insensitive comparison, leaves the role unbound when no candidate
is present, and a bound name is always an actual field of the schema. -/
theorem C5_role_detector (cols : List String) :
    bindsFirst cols COUNTRY_COLS (detect_columns cols).country ∧
    bindsFirst cols SECTOR_COLS (detect_columns cols).sector ∧
    bindsFirst cols YEAR_COLS (detect_columns cols).year ∧
    bindsFirst cols PRECISION_COLS (detect_columns cols).precision ∧
    bindsFirst cols VALUE_COLS (detect_columns cols).value :=
  ⟨pick_bindsFirst cols _, pick_bindsFirst cols _, pick_bindsFirst cols _,
   pick_bindsFirst cols _, pick_bindsFirst cols _⟩

/-- Witness for C5 at a concrete schema: an upper-case `COUNTRY` column
is detected for the country role and is a real schema field. -/
theorem C5_role_detector_witness :
    (detect_columns ["COUNTRY", "notes"]).country = some "COUNTRY" ∧
    "COUNTRY" ∈ ["COUNTRY", "notes"] := by
  have h := ((C5_role_detector ["COUNTRY", "notes"]).1).2 "COUNTRY" (by decide)
  exact ⟨by decide, h.1⟩

/-! ### JSON Sanitizer lemmas -/

theorem lookup_map_snd {β γ : Type} (g : String → β → γ) (n : String)
    (l : List (String × β)) :
    (l.map (fun p => (p.1, g p.1 p.2))).lookup n = (l.lookup n).map (g n) := by
  induction l with
  | nil => rfl
  | cons hd tl ih =>
      rcases hd with ⟨x, y⟩
      cases h : n == x with
      | false => simp only [List.map_cons, List.lookup, h, ih]
      | true =>
          have hx : n = x := eq_of_beq h
          subst hx
          simp only [List.map_cons, List.lookup, h]
          rfl

theorem sanitizeDty_idem (d : Dtype) : sanitizeDty (sanitizeDty d) = sanitizeDty d := by
  cases d <;> rfl

theorem dtypeOf_sanitized (f : Frame) (n : String) (hn : n ≠ "geometry") :
    dtypeOf (sanitize_for_json f) n = sanitizeDty (dtypeOf f n) := by
  unfold dtypeOf sanitize_for_json
  rw [lookup_map_snd (fun m d => if m = "geometry" then d else sanitizeDty d) n f.schema]
  cases f.schema.lookup n with
  | none => rfl
  | some d => simp [hn]

theorem dtypeOf_cleaned (f : Frame) (n : String) (hn : n ≠ "geometry") :
    dtypeOf (clean_for_json f) n = sanitizeDty (dtypeOf f n) := by
  unfold dtypeOf clean_for_json
  rw [lookup_map_snd (fun m d => if m = "geometry" then d else sanitizeDty d) n f.schema]
  cases f.schema.lookup n with
  | none => rfl
  | some d => simp [hn]

theorem sanitizeCellApp_idem (dty : Dtype) (v : PyVal) :
    sanitizeCellApp (sanitizeDty dty) (sanitizeCellApp dty v) = sanitizeCellApp dty v := by
  cases dty <;> cases v <;> rfl

theorem sanitizeCellClean_idem (dty : Dtype) (v : PyVal) :
    sanitizeCellClean (sanitizeDty dty) (sanitizeCellClean dty v) = sanitizeCellClean dty v := by
  cases dty <;> cases v <;> rfl

theorem sanitizeCellApp_nonTS (dty : Dtype) (v : PyVal) (hd : dty ≠ .dt64)
    (hv : v.isTs = false) : sanitizeCellApp dty v = v := by
  cases dty <;> cases v <;> simp_all [sanitizeCellApp, PyVal.isTs]

theorem sanitize_for_json_idem (f : Frame) :
    sanitize_for_json (sanitize_for_json f) = sanitize_for_json f := by
  have hsch : (sanitize_for_json (sanitize_for_json f)).schema =
      (sanitize_for_json f).schema := by
    show ((f.schema.map _).map _) = _
    rw [List.map_map]
    apply List.map_congr_left
    intro p _
    by_cases h : p.1 = "geometry" <;> simp [h, sanitizeDty_idem]
  have hrows : (sanitize_for_json (sanitize_for_json f)).rows =
      (sanitize_for_json f).rows := by
    show ((f.rows.map _).map _) = _
    rw [List.map_map]
    apply List.map_congr_left
    intro r _
    show ((r.map _).map _) = _
    rw [List.map_map]
    apply List.map_congr_left
    intro c _
    by_cases h : c.1 = "geometry"
    · simp [h]
    · simp [h, dtypeOf_sanitized f c.1 h, sanitizeCellApp_idem]
  have hcrs : (sanitize_for_json (sanitize_for_json f)).crs =
      (sanitize_for_json f).crs := rfl
  cases hgoal : sanitize_for_json (sanitize_for_json f) with
  | mk s r c =>
      rw [hgoal] at hsch hrows hcrs
      cases hgoal2 : sanitize_for_json f with
      | mk s2 r2 c2 =>
          rw [hgoal2] at hsch hrows hcrs
          simp_all

theorem clean_for_json_idem (f : Frame) :
    clean_for_json (clean_for_json f) = clean_for_json f := by
  have hsch : (clean_for_json (clean_for_json f)).schema =
      (clean_for_json f).schema := by
    show ((f.schema.map _).map _) = _
    rw [List.map_map]
    apply List.map_congr_left
    intro p _
    by_cases h : p.1 = "geometry" <;> simp [h, sanitizeDty_idem]
  have hrows : (clean_for_json (clean_for_json f)).rows =
      (clean_for_json f).rows := by
    show ((f.rows.map _).map _) = _
    rw [List.map_map]
    apply List.map_congr_left
    intro r _
    show ((r.map _).map _) = _
    rw [List.map_map]
    apply List.map_congr_left
    intro c _
    by_cases h : c.1 = "geometry"
    · simp [h]
    · simp [h, dtypeOf_cleaned f c.1 h, sanitizeCellClean_idem]
  have hcrs : (clean_for_json (clean_for_json f)).crs =
      (clean_for_json f).crs := rfl
  cases hgoal : clean_for_json (clean_for_json f) with
  | mk s r c =>
      rw [hgoal] at hsch hrows hcrs
      cases hgoal2 : clean_for_json f with
      | mk s2 r2 c2 =>
          rw [hgoal2] at hsch hrows hcrs
          simp_all

theorem cellAt_sanitize (f : Frame) (i j : ℕ) (n : String) (v : PyVal)
    (h : cellAt f i j = some (n, v)) :
    cellAt (sanitize_for_json f) i j =
      some (n, if n = "geometry" then v else sanitizeCellApp (dtypeOf f n) v) := by
  unfold cellAt at h ⊢
  cases hri : f.rows.get? i with
  | none =>
      rw [hri] at h
      exact Option.noConfusion h
  | some r =>
      rw [hri] at h
      replace h : r.get? j = some (n, v) := h
      show ((f.rows.map _).get? i).bind _ = _
      rw [List.get?_map, hri]
      show ((r.map _).get? j) = _
      rw [List.get?_map, h]
      rfl

theorem cellAt_clean (f : Frame) (i j : ℕ) (n : String) (v : PyVal)
    (h : cellAt f i j = some (n, v)) :
    cellAt (clean_for_json f) i j =
      some (n, if n = "geometry" then v else sanitizeCellClean (dtypeOf f n) v) := by
  unfold cellAt at h ⊢
  cases hri : f.rows.get? i with
  | none =>
      rw [hri] at h
      exact Option.noConfusion h
  | some r =>
      rw [hri] at h
      replace h : r.get? j = some (n, v) := h
      show ((f.rows.map _).get? i).bind _ = _
      rw [List.get?_map, hri]
      show ((r.map _).get? j) = _
      rw [List.get?_map, h]
      rfl

/-- C7: the JSON Sanitizer is idempotent (for both `sanitize_for_json`
and `clean_for_json`), never modifies the geometry field, converts only
temporal values of attribute fields to text and leaves every other
value untouched. -/
theorem C7_sanitizer (f : Frame) :
    (sanitize_for_json (sanitize_for_json f) = sanitize_for_json f) ∧
    (clean_for_json (clean_for_json f) = clean_for_json f) ∧
    (∀ i j v, cellAt f i j = some ("geometry", v) →
      cellAt (sanitize_for_json f) i j = some ("geometry", v) ∧
      cellAt (clean_for_json f) i j = some ("geometry", v)) ∧
    (∀ i j n v, cellAt f i j = some (n, v) → dtypeOf f n ≠ .dt64 →
      v.isTs = false → cellAt (sanitize_for_json f) i j = some (n, v)) ∧
    (∀ i j n t, cellAt f i j = some (n, .pts t) → n ≠ "geometry" →
      (dtypeOf f n = .dt64 ∨ dtypeOf f n = .objType) →
      ∃ s, cellAt (sanitize_for_json f) i j = some (n, .pstr s)) := by
  refine ⟨sanitize_for_json_idem f, clean_for_json_idem f, ?_, ?_, ?_⟩
  · intro i j v h
    constructor
    · rw [cellAt_sanitize f i j _ v h]; simp
    · rw [cellAt_clean f i j _ v h]; simp
  · intro i j n v h hd hts
    rw [cellAt_sanitize f i j n v h]
    by_cases hg : n = "geometry"
    · simp [hg]
    · simp [hg, sanitizeCellApp_nonTS _ _ hd hts]
  · intro i j n t h hg hdt
    rw [cellAt_sanitize f i j n _ h]
    rcases hdt with hdt | hdt <;>
      simp [hg, hdt, sanitizeCellApp]

/-- Witness for C7 at a concrete record set: geometry and non-temporal
cells survive sanitization unchanged, a temporal object cell becomes
text. -/
theorem C7_sanitizer_witness :
    cellAt (sanitize_for_json exC7F) 0 0 = some ("geometry", .pnone) ∧
    cellAt (sanitize_for_json exC7F) 0 1 = some ("amount", .pint 5) ∧
    (∃ s, cellAt (sanitize_for_json exC7F) 0 3 = some ("note", .pstr s)) := by
  have h := C7_sanitizer exC7F
  exact ⟨(h.2.2.1 0 0 .pnone (by decide)).1,
    h.2.2.2.1 0 1 "amount" (.pint 5) (by decide) (by decide) (by decide),
    h.2.2.2.2 0 3 "note" ⟨86400000000000⟩ (by decide) (by decide) (by decide)⟩

/-! ### Quantile lemmas -/

theorem sorted_get_le {s : List ℚ} (hs : s.Sorted (· ≤ ·)) {i j : ℕ}
    (hij : i ≤ j) (hj : j < s.length) :
    s.get ⟨i, lt_of_le_of_lt hij hj⟩ ≤ s.get ⟨j, hj⟩ := by
  rcases lt_or_eq_of_le hij with h | h
  · exact hs.rel_get_of_lt h
  · subst h
    exact le_refl _

theorem interpSeg_mono {s : List ℚ} (hs : s.Sorted (· ≤ ·)) {i1 i2 : ℕ}
    {h1 h2 a b : ℚ}
    (hi1le : (i1 : ℚ) ≤ h1) (hlt1 : h1 < (i1 : ℚ) + 1) (hi2le : (i2 : ℚ) ≤ h2)
    (h12 : h1 ≤ h2) (hi12 : i1 ≤ i2) (hi2lt : i2 < s.length)
    (ha : interpSeg s h1 i1 = some a) (hb : interpSeg s h2 i2 = some b) :
    a ≤ b := by
  have hi1lt : i1 < s.length := lt_of_le_of_lt hi12 hi2lt
  rw [interpSeg, List.get?_eq_get hi1lt] at ha
  rw [interpSeg, List.get?_eq_get hi2lt] at hb
  by_cases hcase : i1 = i2
  · -- same segment
    subst hcase
    cases hB : s.get? (i1 + 1) with
    | none =>
        rw [hB] at ha hb
        simp only [Option.some.injEq] at ha hb
        rw [← ha, ← hb]
    | some sb =>
        rw [hB] at ha hb
        simp only [Option.some.injEq] at ha hb
        obtain ⟨hblt, hbeq⟩ := List.get?_eq_some.1 hB
        have hgb : s.get ⟨i1, hi1lt⟩ ≤ sb := by
          rw [← hbeq]
          exact sorted_get_le hs (Nat.le_succ i1) hblt
        have hget : s.get ⟨i1, hi1lt⟩ = s.get ⟨i1, hi2lt⟩ := rfl
        have hmul : 0 ≤ (h2 - h1) * (sb - s.get ⟨i1, hi1lt⟩) :=
          mul_nonneg (sub_nonneg.2 h12) (sub_nonneg.2 hgb)
        rw [← ha, ← hb, ← hget]
        nlinarith [hmul]
  · -- strictly later segment
    have hi12' : i1 < i2 := lt_of_le_of_ne hi12 hcase
    have hi1p1 : i1 + 1 < s.length := lt_of_le_of_lt hi12' hi2lt
    have hi1p1le : i1 + 1 ≤ i2 := hi12'
    rw [List.get?_eq_get hi1p1] at ha
    simp only [Option.some.injEq] at ha
    have hg11 : s.get ⟨i1, hi1lt⟩ ≤ s.get ⟨i1 + 1, hi1p1⟩ :=
      sorted_get_le hs (Nat.le_succ i1) hi1p1
    have hg1g2 : s.get ⟨i1 + 1, hi1p1⟩ ≤ s.get ⟨i2, hi2lt⟩ :=
      sorted_get_le hs hi1p1le hi2lt
    have hale : a ≤ s.get ⟨i1 + 1, hi1p1⟩ := by
      have hfrac : h1 - (i1 : ℚ) ≤ 1 := by linarith
      have hfrnn : 0 ≤ h1 - (i1 : ℚ) := by linarith
      nlinarith [sub_nonneg.2 hg11]
    have hble : s.get ⟨i2, hi2lt⟩ ≤ b := by
      cases hB2 : s.get? (i2 + 1) with
      | none =>
          rw [hB2] at hb
          simp only [Option.some.injEq] at hb
          rw [← hb]
      | some sd =>
          rw [hB2] at hb
          simp only [Option.some.injEq] at hb
          obtain ⟨hdlt, hdeq⟩ := List.get?_eq_some.1 hB2
          have hgd : s.get ⟨i2, hi2lt⟩ ≤ sd := by
            rw [← hdeq]
            exact sorted_get_le hs (Nat.le_succ i2) hdlt
          have hfr2 : 0 ≤ h2 - (i2 : ℚ) := by linarith
          nlinarith [mul_nonneg hfr2 (sub_nonneg.2 hgd)]
    linarith

theorem interpAt_mono {s : List ℚ} (hs : s.Sorted (· ≤ ·)) {h1 h2 a b : ℚ}
    (h1nn : 0 ≤ h1) (h12 : h1 ≤ h2) (hub : h2 ≤ ((s.length - 1 : ℕ) : ℚ))
    (ha : interpAt s h1 = some a) (hb : interpAt s h2 = some b) : a ≤ b := by
  cases s with
  | nil =>
      rw [interpAt, interpSeg] at ha
      exact Option.noConfusion ha
  | cons x s0 =>
    have hf1nn : 0 ≤ Int.floor h1 := Int.floor_nonneg.2 h1nn
    have hf2nn : 0 ≤ Int.floor h2 := Int.floor_nonneg.2 (le_trans h1nn h12)
    have hi1z : (((Int.floor h1).toNat : ℕ) : ℤ) = Int.floor h1 :=
      Int.toNat_of_nonneg hf1nn
    have hi2z : (((Int.floor h2).toNat : ℕ) : ℤ) = Int.floor h2 :=
      Int.toNat_of_nonneg hf2nn
    have hi1le : (((Int.floor h1).toNat : ℕ) : ℚ) ≤ h1 := by
      have := Int.floor_le h1
      rw [← hi1z] at this
      exact_mod_cast this
    have hi2le : (((Int.floor h2).toNat : ℕ) : ℚ) ≤ h2 := by
      have := Int.floor_le h2
      rw [← hi2z] at this
      exact_mod_cast this
    have hlt1 : h1 < (((Int.floor h1).toNat : ℕ) : ℚ) + 1 := by
      have := Int.lt_floor_add_one h1
      rw [← hi1z] at this
      exact_mod_cast this
    have hi12 : (Int.floor h1).toNat ≤ (Int.floor h2).toNat :=
      Int.toNat_le_toNat (Int.floor_mono h12)
    have hlen1 : ((x :: s0).length - 1 : ℕ) = s0.length := rfl
    have hi2m : (Int.floor h2).toNat ≤ s0.length := by
      have hz : Int.floor h2 ≤ (s0.length : ℤ) := by
        have := Int.floor_mono hub
        rwa [hlen1, Int.floor_natCast] at this
      have h2' : (((Int.floor h2).toNat : ℕ) : ℤ) ≤ (s0.length : ℤ) := hi2z ▸ hz
      exact_mod_cast h2'
    have hi2lt : (Int.floor h2).toNat < (x :: s0).length := by
      have : (x :: s0).length = s0.length + 1 := rfl
      omega
    exact interpSeg_mono hs hi1le hlt1 hi2le h12 hi12 hi2lt ha hb

theorem quantile_le_quantile {xs : List ℚ} {q1 q2 a b : ℚ}
    (hq0 : 0 ≤ q1) (h12 : q1 ≤ q2) (hq1 : q2 ≤ 1)
    (ha : quantile xs q1 = some a) (hb : quantile xs q2 = some b) : a ≤ b := by
  cases xs with
  | nil => exact Option.noConfusion ha
  | cons x xs0 =>
    have hs : ((x :: xs0).insertionSort (· ≤ ·)).Sorted (· ≤ ·) :=
      List.sorted_insertionSort _ _
    have hlen : ((x :: xs0).insertionSort (· ≤ ·)).length = (x :: xs0).length :=
      (List.perm_insertionSort _ _).length_eq
    replace ha : interpAt ((x :: xs0).insertionSort (· ≤ ·))
        ((((x :: xs0).length - 1 : ℕ) : ℚ) * q1) = some a := ha
    replace hb : interpAt ((x :: xs0).insertionSort (· ≤ ·))
        ((((x :: xs0).length - 1 : ℕ) : ℚ) * q2) = some b := hb
    refine interpAt_mono hs ?_ ?_ ?_ ha hb
    · exact mul_nonneg (Nat.cast_nonneg _) hq0
    · exact mul_le_mul_of_nonneg_left h12 (Nat.cast_nonneg _)
    · rw [hlen]
      calc (((x :: xs0).length - 1 : ℕ) : ℚ) * q2
          ≤ (((x :: xs0).length - 1 : ℕ) : ℚ) * 1 :=
            mul_le_mul_of_nonneg_left hq1 (Nat.cast_nonneg _)
        _ = (((x :: xs0).length - 1 : ℕ) : ℚ) := mul_one _

/-- C4: against tercile breakpoints p33 and p66 computed by the Value
Bucketizer over a list of defined numeric values, a value is Low exactly
when it is at most p33, Medium exactly when it lies strictly above p33
and at most p66, High exactly when it lies strictly above p66 (a value
equal to a breakpoint goes to the lower bucket), and an undefined value
is unclassified and excluded by every bucket filter. -/
theorem C4_bucketizer (vals : List ℚ) (p33 p66 : ℚ)
    (h33 : quantile vals (33 / 100) = some p33)
    (h66 : quantile vals (66 / 100) = some p66) :
    (∀ v : ℚ,
      (bucket (some p33) (some p66) (some v) = some "Low" ↔ v ≤ p33) ∧
      (bucket (some p33) (some p66) (some v) = some "Medium" ↔ p33 < v ∧ v ≤ p66) ∧
      (bucket (some p33) (some p66) (some v) = some "High" ↔ p66 < v)) ∧
    bucket (some p33) (some p66) none = none ∧
    (∀ choice : List String, bucketMem choice (bucket (some p33) (some p66) none) = false) := by
  have hple : p33 ≤ p66 :=
    quantile_le_quantile (by norm_num) (by norm_num) (by norm_num) h33 h66
  refine ⟨fun v => ⟨?_, ?_, ?_⟩, rfl, fun choice => rfl⟩
  · constructor
    · intro h
      by_cases hv : v ≤ p33
      · exact hv
      · exfalso
        by_cases hv2 : v ≤ p66 <;> simp [bucket, leOpt, hv, hv2] at h
    · intro hv
      simp [bucket, leOpt, hv]
  · constructor
    · intro h
      by_cases hv : v ≤ p33
      · simp [bucket, leOpt, hv] at h
      · by_cases hv2 : v ≤ p66
        · exact ⟨lt_of_not_le hv, hv2⟩
        · simp [bucket, leOpt, hv, hv2] at h
    · rintro ⟨hv1, hv2⟩
      simp [bucket, leOpt, not_le.2 hv1, hv2]
  · constructor
    · intro h
      by_cases hv : v ≤ p33
      · simp [bucket, leOpt, hv] at h
      · by_cases hv2 : v ≤ p66
        · simp [bucket, leOpt, hv, hv2] at h
        · exact lt_of_not_le hv2
    · intro hv
      have hv1 : ¬ v ≤ p33 := not_le.2 (lt_of_le_of_lt hple hv)
      simp [bucket, leOpt, hv1, not_le.2 hv]

theorem quantile33_of_123 : quantile [(1 : ℚ), 2, 3] (33 / 100) = some (83 / 50) := by
  have hsort : List.insertionSort (· ≤ ·) [(1 : ℚ), 2, 3] = [1, 2, 3] := by
    norm_num [List.insertionSort, List.orderedInsert]
  show interpAt (List.insertionSort (· ≤ ·) [(1 : ℚ), 2, 3])
      ((([(1 : ℚ), 2, 3].length - 1 : ℕ) : ℚ) * (33 / 100)) = some (83 / 50)
  rw [hsort]
  show interpAt [(1 : ℚ), 2, 3] (((2 : ℕ) : ℚ) * (33 / 100)) = some (83 / 50)
  rw [interpAt]
  have hfloor : (Int.floor (((2 : ℕ) : ℚ) * (33 / 100))).toNat = 0 := by norm_num
  rw [hfloor, interpSeg]
  norm_num

theorem quantile66_of_123 : quantile [(1 : ℚ), 2, 3] (66 / 100) = some (58 / 25) := by
  have hsort : List.insertionSort (· ≤ ·) [(1 : ℚ), 2, 3] = [1, 2, 3] := by
    norm_num [List.insertionSort, List.orderedInsert]
  show interpAt (List.insertionSort (· ≤ ·) [(1 : ℚ), 2, 3])
      ((([(1 : ℚ), 2, 3].length - 1 : ℕ) : ℚ) * (66 / 100)) = some (58 / 25)
  rw [hsort]
  show interpAt [(1 : ℚ), 2, 3] (((2 : ℕ) : ℚ) * (66 / 100)) = some (58 / 25)
  rw [interpAt]
  have hfloor : (Int.floor (((2 : ℕ) : ℚ) * (66 / 100))).toNat = 1 := by norm_num
  rw [hfloor, interpSeg]
  norm_num

/-- Witness for C4 at the value list `[1, 2, 3]`: the breakpoints are
p33 = 1.66 and p66 = 2.32, classifying 1 as Low, 2 as Medium and 3 as
High, with the null value unclassified. -/
theorem C4_bucketizer_witness :
    bucket (some (83 / 50)) (some (58 / 25)) (some 1) = some "Low" ∧
    bucket (some (83 / 50)) (some (58 / 25)) (some 2) = some "Medium" ∧
    bucket (some (83 / 50)) (some (58 / 25)) (some 3) = some "High" ∧
    bucket (some (83 / 50)) (some (58 / 25)) none = none := by
  have h := C4_bucketizer [1, 2, 3] (83 / 50) (58 / 25)
    quantile33_of_123 quantile66_of_123
  exact ⟨(h.1 1).1.2 (by norm_num), (h.1 2).2.1.2 (by norm_num),
    (h.1 3).2.2.2 (by norm_num), h.2.1⟩

/-! ### Filter Engine conjunction (C1) -/

theorem applyMask_subset {α : Type} (l : List α) (m : List Bool) :
    ∀ x ∈ applyMask l m, x ∈ l := by
  induction l generalizing m with
  | nil =>
      intro x hx
      cases m <;> simp [applyMask] at hx
  | cons a l ih =>
      intro x hx
      cases m with
      | nil => simp [applyMask] at hx
      | cons b bs =>
          cases b with
          | false =>
              simp only [applyMask, if_neg Bool.false_ne_true] at hx
              exact List.mem_cons_of_mem _ (ih bs x hx)
          | true =>
              simp only [applyMask, if_pos rfl] at hx
              rcases List.mem_cons.1 hx with rfl | h
              · exact List.mem_cons_self _ _
              · exact List.mem_cons_of_mem _ (ih bs x h)

theorem valueStage_rows_subset (choice : List String) (cb : Option String)
    (f : Frame) : ∀ r ∈ (valueStage choice cb f).rows, r ∈ f.rows := by
  intro r hr
  cases choice with
  | nil => exact hr
  | cons c0 cs =>
      cases cb with
      | none => exact hr
      | some c => exact applyMask_subset f.rows _ r hr

theorem valueStage_cons (c0 : String) (cs : List String) (c : String) (f : Frame) :
    valueStage (c0 :: cs) (some c) f =
      maskFilter f (((toNumericCol (dtypeOf f c) (colCells f c)).map
        (bucket
          (quantile ((toNumericCol (dtypeOf f c) (colCells f c)).filterMap id) (33 / 100))
          (quantile ((toNumericCol (dtypeOf f c) (colCells f c)).filterMap id) (66 / 100)))).map
        (bucketMem (c0 :: cs))) := rfl

theorem quantile33_of_12 : quantile [(1 : ℚ), 2] (33 / 100) = some (133 / 100) := by
  show interpAt (List.insertionSort (· ≤ ·) [(1 : ℚ), 2])
      ((([(1 : ℚ), 2].length - 1 : ℕ) : ℚ) * (33 / 100)) = some (133 / 100)
  rw [show List.insertionSort (· ≤ ·) [(1 : ℚ), 2] = [1, 2] from by
    norm_num [List.insertionSort, List.orderedInsert]]
  show interpAt [(1 : ℚ), 2] (((1 : ℕ) : ℚ) * (33 / 100)) = some (133 / 100)
  rw [interpAt]
  rw [show (Int.floor (((1 : ℕ) : ℚ) * (33 / 100))).toNat = 0 from by norm_num]
  rw [interpSeg]
  norm_num

theorem quantile66_of_12 : quantile [(1 : ℚ), 2] (66 / 100) = some (83 / 50) := by
  show interpAt (List.insertionSort (· ≤ ·) [(1 : ℚ), 2])
      ((([(1 : ℚ), 2].length - 1 : ℕ) : ℚ) * (66 / 100)) = some (83 / 50)
  rw [show List.insertionSort (· ≤ ·) [(1 : ℚ), 2] = [1, 2] from by
    norm_num [List.insertionSort, List.orderedInsert]]
  show interpAt [(1 : ℚ), 2] (((1 : ℕ) : ℚ) * (66 / 100)) = some (83 / 50)
  rw [interpAt]
  rw [show (Int.floor (((1 : ℕ) : ℚ) * (66 / 100))).toNat = 0 from by norm_num]
  rw [interpSeg]
  norm_num

theorem quantile33_of_full : quantile [(1 : ℚ), 2, 30] (33 / 100) = some (83 / 50) := by
  show interpAt (List.insertionSort (· ≤ ·) [(1 : ℚ), 2, 30])
      ((([(1 : ℚ), 2, 30].length - 1 : ℕ) : ℚ) * (33 / 100)) = some (83 / 50)
  rw [show List.insertionSort (· ≤ ·) [(1 : ℚ), 2, 30] = [1, 2, 30] from by
    norm_num [List.insertionSort, List.orderedInsert]]
  show interpAt [(1 : ℚ), 2, 30] (((2 : ℕ) : ℚ) * (33 / 100)) = some (83 / 50)
  rw [interpAt]
  rw [show (Int.floor (((2 : ℕ) : ℚ) * (33 / 100))).toNat = 0 from by norm_num]
  rw [interpSeg]
  norm_num

theorem quantile66_of_full : quantile [(1 : ℚ), 2, 30] (66 / 100) = some (274 / 25) := by
  show interpAt (List.insertionSort (· ≤ ·) [(1 : ℚ), 2, 30])
      ((([(1 : ℚ), 2, 30].length - 1 : ℕ) : ℚ) * (66 / 100)) = some (274 / 25)
  rw [show List.insertionSort (· ≤ ·) [(1 : ℚ), 2, 30] = [1, 2, 30] from by
    norm_num [List.insertionSort, List.orderedInsert]]
  show interpAt [(1 : ℚ), 2, 30] (((2 : ℕ) : ℚ) * (66 / 100)) = some (274 / 25)
  rw [interpAt]
  rw [show (Int.floor (((2 : ℕ) : ℚ) * (66 / 100))).toNat = 1 from by norm_num]
  rw [interpSeg]
  norm_num

theorem exC1_country_eval :
    applyFilters exC1F exC1Cols ["A"] [] none [] [] = exC1Country := by decide

theorem exC1_combined_eval :
    applyFilters exC1F exC1Cols ["A"] [] none [] ["High"] =
      { exC1F with rows := [exC1RowA2] } := by
  have h0 : applyFilters exC1F exC1Cols ["A"] [] none [] ["High"] =
      valueStage ["High"] (some "val") exC1Country := by
    show valueStage ["High"] exC1Cols.value
        (selStage ["A"] exC1Cols.country exC1F) = _
    rw [show selStage ["A"] exC1Cols.country exC1F = exC1Country from by decide]
    rfl
  rw [h0, valueStage_cons]
  rw [show toNumericCol (dtypeOf exC1Country "val") (colCells exC1Country "val") =
    [some (1 : ℚ), some (2 : ℚ)] from by decide]
  rw [show ([some (1 : ℚ), some (2 : ℚ)].filterMap id) = [(1 : ℚ), 2] from by decide]
  rw [quantile33_of_12, quantile66_of_12]
  rw [show [some (1 : ℚ), some (2 : ℚ)].map
      (bucket (some (133 / 100)) (some (83 / 50))) = [some "Low", some "High"] from by
    norm_num [bucket, leOpt]]
  decide

theorem exC1_bucket_eval :
    applyFilters exC1F exC1Cols [] [] none [] ["High"] =
      { exC1F with rows := [exC1RowB30] } := by
  have h0 : applyFilters exC1F exC1Cols [] [] none [] ["High"] =
      valueStage ["High"] (some "val") exC1F := rfl
  rw [h0, valueStage_cons]
  rw [show toNumericCol (dtypeOf exC1F "val") (colCells exC1F "val") =
    [some (1 : ℚ), some (2 : ℚ), some (30 : ℚ)] from by decide]
  rw [show ([some (1 : ℚ), some (2 : ℚ), some (30 : ℚ)].filterMap id) =
    [(1 : ℚ), 2, 30] from by decide]
  rw [quantile33_of_full, quantile66_of_full]
  rw [show [some (1 : ℚ), some (2 : ℚ), some (30 : ℚ)].map
      (bucket (some (83 / 50)) (some (274 / 25))) =
      [some "Low", some "Medium", some "High"] from by
    norm_num [bucket, leOpt]]
  decide

/-- C1 (counterexample): on the record set `exC1F`, filtering by
country `{A}` together with bucket `{High}` keeps the record with value
`2`, which lies outside the intersection of the two single-filter
results — the bucket boundaries are recomputed over the country-filtered
values, so conjunction-as-intersection fails. -/
theorem C1_conjunction_counterexample :
    exC1RowA2 ∈ (applyFilters exC1F exC1Cols ["A"] [] none [] ["High"]).rows ∧
    exC1RowA2 ∉ interRows
      (applyFilters exC1F exC1Cols ["A"] [] none [] []).rows
      (applyFilters exC1F exC1Cols [] [] none [] ["High"]).rows := by
  rw [exC1_combined_eval, exC1_country_eval, exC1_bucket_eval]
  exact ⟨by decide, by decide⟩

/-- C1 (amended): filtering by country `{A}` together with bucket
`{High}` returns exactly the result of applying the High-bucket filter
— with tercile breakpoints recomputed over the country-filtered values —
to the country-only result; in particular it never contains a record
outside the country-only result (but it can leave the intersection with
the bucket-only result, whose breakpoints come from the full set). -/
theorem C1_conjunction_amended (f : Frame) (cb : ColsB) :
    applyFilters f cb ["A"] [] none [] ["High"] =
      valueStage ["High"] cb.value (applyFilters f cb ["A"] [] none [] []) ∧
    ∀ r ∈ (applyFilters f cb ["A"] [] none [] ["High"]).rows,
      r ∈ (applyFilters f cb ["A"] [] none [] []).rows := by
  refine ⟨rfl, ?_⟩
  intro r hr
  exact valueStage_rows_subset ["High"] cb.value
    (applyFilters f cb ["A"] [] none [] []) r hr

/-- Witness for the amended C1 at the concrete record set: the record
kept by the combined filter is indeed a record of the country-only
result. -/
theorem C1_conjunction_amended_witness :
    exC1RowA2 ∈ (applyFilters exC1F exC1Cols ["A"] [] none [] []).rows := by
  apply (C1_conjunction_amended exC1F exC1Cols).2 exC1RowA2
  rw [exC1_combined_eval]
  decide

/-! ### Reader lemmas (C9, C10) -/

theorem rows_length_to_wgs84 (rp : CRS → ℚ × ℚ → ℚ × ℚ) (f : Frame) :
    (to_wgs84 rp f).rows.length = f.rows.length := by
  cases hc : f.crs with
  | none => simp [to_wgs84, hc]
  | some c =>
      by_cases h : c.epsg = some 4326
      · simp [to_wgs84, hc, h]
      · simp [to_wgs84, hc, h, toCrs4326]

theorem rows_length_simplify (sf : Geom → Geom) (f : Frame) :
    (simplify_geometries sf f).rows.length = f.rows.length := by
  unfold simplify_geometries
  by_cases h : f.rows.isEmpty <;> simp [h]

theorem concatFrames_rows_length (frames : List Frame) :
    (concatFrames frames).rows.length =
      (frames.map (fun g => g.rows.length)).sum := by
  unfold concatFrames
  simp only [List.length_flatten, List.map_map]
  rfl

/-- C9: loading from a folder of GeoJSON documents fails — aborting the
whole load with no partial result — exactly when the folder is missing,
contains no `.geojson` file, or no file in it is readable; when at least
one file is readable, the unreadable ones are skipped and the result
merges exactly the readable frames (its record count is their total). -/
theorem C9_folder_loader (rp : CRS → ℚ × ℚ → ℚ × ℚ) (sf : Geom → Geom)
    (folder : Option (List (String × Option Frame))) (st : Option ℚ) :
    ((read_geojson_folder rp sf folder st).isOk = true ↔
      ∃ entries, folder = some entries ∧ geojsonFiles entries ≠ [] ∧
        (geojsonFiles entries).filterMap (fun e => e.2) ≠ []) ∧
    (∀ entries g, folder = some entries →
      read_geojson_folder rp sf folder st = .ok g →
      g.rows.length =
        (((geojsonFiles entries).filterMap (fun e => e.2)).map
          (fun fr => fr.rows.length)).sum) := by
  cases folder with
  | none =>
      refine ⟨⟨fun h => Bool.noConfusion h, ?_⟩, ?_⟩
      · rintro ⟨entries, h, -, -⟩
        exact Option.noConfusion h
      · intro entries g h
        exact Option.noConfusion h
  | some entries =>
      by_cases hfe : (geojsonFiles entries).isEmpty
      · have hred : read_geojson_folder rp sf (some entries) st =
            .error "No .geojson files found" := by
          simp [read_geojson_folder, hfe]
        refine ⟨⟨fun h => ?_, ?_⟩, ?_⟩
        · rw [hred] at h
          exact Bool.noConfusion h
        · rintro ⟨e2, he2, hne, -⟩
          cases Option.some.inj he2
          exact absurd (List.isEmpty_iff.1 hfe) hne
        · intro e2 g he2 hg
          rw [hred] at hg
          exact Except.noConfusion hg
      · cases hfr : (geojsonFiles entries).filterMap (fun e => e.2) with
        | nil =>
            have hred : read_geojson_folder rp sf (some entries) st =
                .error "No valid GeoJSON files could be read" := by
              simp [read_geojson_folder, hfe, hfr]
            refine ⟨⟨fun h => ?_, ?_⟩, ?_⟩
            · rw [hred] at h
              exact Bool.noConfusion h
            · rintro ⟨e2, he2, -, hne⟩
              cases Option.some.inj he2
              exact absurd hfr hne
            · intro e2 g he2 hg
              rw [hred] at hg
              exact Except.noConfusion hg
        | cons f0 fs =>
            have hok : read_geojson_folder rp sf (some entries) st =
                (match st with
                 | some t =>
                     if t ≠ 0 then
                       Except.ok (simplify_geometries sf (to_wgs84 rp
                         { concatFrames (f0 :: fs) with crs := f0.crs }))
                     else Except.ok (to_wgs84 rp
                       { concatFrames (f0 :: fs) with crs := f0.crs })
                 | none => Except.ok (to_wgs84 rp
                     { concatFrames (f0 :: fs) with crs := f0.crs })) := by
              simp [read_geojson_folder, hfe, hfr]
            have hfne : geojsonFiles entries ≠ [] := by
              intro h
              rw [h] at hfe
              exact absurd rfl hfe
            have hbase : (to_wgs84 rp
                { concatFrames (f0 :: fs) with crs := f0.crs }).rows.length =
                ((f0 :: fs).map (fun fr => fr.rows.length)).sum := by
              rw [rows_length_to_wgs84]
              exact concatFrames_rows_length (f0 :: fs)
            have hok2 : ∀ g, read_geojson_folder rp sf (some entries) st = .ok g →
                g.rows.length = ((f0 :: fs).map (fun fr => fr.rows.length)).sum := by
              intro g hg
              rw [hok] at hg
              split at hg
              · split at hg
                · cases hg
                  rw [rows_length_simplify]
                  exact hbase
                · cases hg
                  exact hbase
              · cases hg
                exact hbase
            refine ⟨⟨fun _ => ⟨entries, rfl, hfne, by rw [hfr]; simp⟩, fun _ => ?_⟩, ?_⟩
            · rw [hok]
              split
              · split <;> rfl
              · rfl
            · intro e2 g he2 hg
              cases Option.some.inj he2
              rw [hfr]
              exact hok2 g hg

/-- Evaluation of the C9 witness folder: one readable file with two
records, one unreadable file, one ignored non-GeoJSON file. -/
theorem exC9_read_eval :
    read_geojson_folder (fun _ p => p) (fun g => g) (some exC9Entries) none =
      .ok exFr1 := rfl

/-- Witness for C9 at the concrete folder `exC9Entries`: the load
succeeds and the merged result holds exactly the two records of the one
readable file. -/
theorem C9_folder_loader_witness :
    (read_geojson_folder (fun _ p => p) (fun g => g) (some exC9Entries) none).isOk
      = true ∧ exFr1.rows.length = 2 := by
  have h := C9_folder_loader (fun _ p => p) (fun g => g) (some exC9Entries) none
  exact ⟨h.1.mpr ⟨exC9Entries, rfl, by decide, by decide⟩,
    (h.2 exC9Entries exFr1 rfl exC9_read_eval).trans (by decide)⟩

theorem firstNonEmptyLayer_cons2 (g g2 : Frame) (gs : List Frame) :
    firstNonEmptyLayer (g :: g2 :: gs) =
      if g.rows ≠ [] then some g else firstNonEmptyLayer (g2 :: gs) := rfl

theorem firstNonEmptyLayer_isSome (gs : List Frame) (h : gs ≠ []) :
    ∃ g, firstNonEmptyLayer gs = some g := by
  induction gs with
  | nil => exact absurd rfl h
  | cons g rest ih =>
      cases rest with
      | nil => exact ⟨g, rfl⟩
      | cons r2 rs =>
          by_cases hg : g.rows ≠ []
          · exact ⟨g, by rw [firstNonEmptyLayer_cons2, if_pos hg]⟩
          · obtain ⟨g2, hg2⟩ := ih (by simp)
            exact ⟨g2, by rw [firstNonEmptyLayer_cons2, if_neg hg]; exact hg2⟩

theorem scanLayers_eq_firstNonEmpty (ls : List (String × Option Frame)) :
    (∀ e ∈ ls, e.2.isSome) →
    scanLayers ls = firstNonEmptyLayer (ls.filterMap (fun e => e.2)) := by
  induction ls with
  | nil => intro _; rfl
  | cons e rest ih =>
      intro hall
      obtain ⟨nm, og⟩ := e
      cases og with
      | none =>
          have := hall (nm, none) (List.mem_cons_self _ _)
          simp at this
      | some g =>
          have hrest : ∀ x ∈ rest, x.2.isSome :=
            fun x hx => hall x (List.mem_cons_of_mem _ hx)
          cases rest with
          | nil =>
              by_cases hg : g.isEmptyF <;>
                simp [scanLayers, firstNonEmptyLayer, hg]
          | cons r2 rest2 =>
              obtain ⟨nm2, og2⟩ := r2
              have h2 := hrest (nm2, og2) (List.mem_cons_self _ _)
              cases og2 with
              | none => simp at h2
              | some g2 =>
                  by_cases hg : g.isEmptyF
                  · have hrows : g.rows = [] := by
                      simpa [Frame.isEmptyF, List.isEmpty_iff] using hg
                    calc scanLayers ((nm, some g) :: (nm2, some g2) :: rest2)
                        = scanLayers ((nm2, some g2) :: rest2) := by
                          simp [scanLayers, hg]
                      _ = firstNonEmptyLayer
                            (((nm2, some g2) :: rest2).filterMap (fun e => e.2)) :=
                          ih hrest
                      _ = firstNonEmptyLayer
                            (((nm, some g) :: (nm2, some g2) :: rest2).filterMap
                              (fun e => e.2)) := by
                          simp only [List.filterMap_cons]
                          rw [firstNonEmptyLayer_cons2, if_neg (by simp [hrows])]
                  · have hrows : g.rows ≠ [] := by
                      simp [Frame.isEmptyF, List.isEmpty_iff] at hg
                      exact hg
                    simp only [scanLayers, hg, List.filterMap_cons]
                    rw [firstNonEmptyLayer_cons2, if_pos hrows]
                    simp

/-- C10: `read_geopackage` raises a file-not-found error before any read
when the path is missing; and when no explicit layer is requested, the
listing succeeds with at least one layer, and every per-layer read
succeeds, the reader returns (normalized, optionally simplified) the
first non-empty layer in declared order, falling back to the last layer
when every layer is empty. -/
theorem C10_geopackage (rp : CRS → ℚ × ℚ → ℚ × ℚ) (sf : Geom → Geom)
    (st : Option ℚ) :
    (∀ layer, read_geopackage rp sf none layer st =
      .error "GeoPackage not found") ∧
    (∀ (pkg : Gpkg) (ls : List (String × Option Frame)),
      pkg.listing = some ls → ls ≠ [] → (∀ e ∈ ls, e.2.isSome) →
      ∃ g, firstNonEmptyLayer (ls.filterMap (fun e => e.2)) = some g ∧
        read_geopackage rp sf (some pkg) none st = .ok (postRead rp sf st g)) := by
  constructor
  · intro layer
    rfl
  · intro pkg ls hls hne hall
    have hscan := scanLayers_eq_firstNonEmpty ls hall
    have hfmne : ls.filterMap (fun e => e.2) ≠ [] := by
      cases ls with
      | nil => exact absurd rfl hne
      | cons e r =>
          obtain ⟨nm, og⟩ := e
          have := hall (nm, og) (List.mem_cons_self _ _)
          cases og with
          | none => simp at this
          | some g => simp [List.filterMap_cons]
    obtain ⟨g, hg⟩ := firstNonEmptyLayer_isSome _ hfmne
    refine ⟨g, hg, ?_⟩
    have hie : ls.isEmpty = false := by
      cases h : ls.isEmpty
      · rfl
      · exact absurd (List.isEmpty_iff.1 h) hne
    have htry : (match pkg.listing with
        | none => (none : Option Frame)
        | some ls2 => if ls2.isEmpty then none else scanLayers ls2) = some g := by
      rw [hls]
      simp only [hie, Bool.false_eq_true, if_false]
      rw [hscan, hg]
    show (match
        (match (match pkg.listing with
          | none => (none : Option Frame)
          | some ls2 => if ls2.isEmpty then none else scanLayers ls2) with
         | some g2 => some g2
         | none => pkg.fallbackRead) with
       | some g2 =>
         (match st with
          | some t => if t ≠ 0 then Except.ok (simplify_geometries sf (to_wgs84 rp g2))
                      else Except.ok (to_wgs84 rp g2)
          | none => Except.ok (to_wgs84 rp g2))
       | none => Except.error "read failed") = Except.ok (postRead rp sf st g)
    rw [htry]
    cases st with
    | none => rfl
    | some t =>
        by_cases ht : t ≠ 0
        · show (if t ≠ 0 then _ else _) = _
          rw [if_pos ht]
          simp [postRead, ht]
        · show (if t ≠ 0 then _ else _) = _
          rw [if_neg ht]
          simp [postRead, ht]

/-- Witness for C10 at the concrete GeoPackage `exC10Pkg`: the first
layer is empty, so the reader returns the second, non-empty layer. -/
theorem C10_geopackage_witness :
    read_geopackage (fun _ p => p) (fun g => g) (some exC10Pkg) none none =
      .ok (to_wgs84 (fun _ p => p) exFr1) := by
  obtain ⟨g, hg, hr⟩ := (C10_geopackage (fun _ p => p) (fun g => g) none).2
    exC10Pkg [("empty", some exEmptyF), ("good", some exFr1)]
    rfl (by decide) (by decide)
  have h2 : firstNonEmptyLayer
      ([("empty", some exEmptyF), ("good", some exFr1)].filterMap (fun e => e.2)) =
      some exFr1 := by decide
  have hge : g = exFr1 := Option.some.inj (hg.symm.trans h2)
  rw [hge] at hr
  exact hr

end BRI
